import Mathlib

/-!
Verification of the build/release resolution and log-mining pipeline of the
azure-nimbus CLI.  The definitions below are shallow embeddings of the
TypeScript service code (`AzureDevOpsService` in the service layer and the
report `TemplateEngine`): provider calls (CLI invocations, REST fetches) are
modelled as explicit inputs of type `Except String _` or `Option _` (error =
the call threw), timestamps obtained through `new Date(s).getTime()` are
modelled as natural numbers (epoch milliseconds), and JavaScript string
`includes` / the specific regexes used by the code are modelled by
executable character-list scanners.
-/

namespace AzureNimbus

/-- Character-list test: `charsLeads pat cs` is true when `pat` begins `cs`
(the JS `String.prototype.startsWith` on the remaining text). -/
def charsLeads : List Char → List Char → Bool
  | [], _ => true
  | _ :: _, [] => false
  | p :: ps, c :: cs => p == c && charsLeads ps cs

/-- Substring occurrence test on character lists: true when `pat` occurs
contiguously in the scanned list. -/
def charsHasSub (pat : List Char) : List Char → Bool
  | [] => pat.isEmpty
  | c :: cs => charsLeads pat (c :: cs) || charsHasSub pat cs

/-- JS `String.prototype.includes`: `sContains s pat` is true when `pat`
occurs as a substring of `s`. -/
def sContains (s pat : String) : Bool := charsHasSub pat.data s.data

/-- Maximal leading run of decimal digits (the greedy `\d+`). -/
def takeDigits : List Char → List Char
  | [] => []
  | c :: cs => if c.isDigit then c :: takeDigits cs else []

/-- Try to match `<pre>(\d+)<post>` at the current position, returning the
captured digit run.  Because the character after a maximal digit run is never
a digit while each `post` used in the code begins with a space, the greedy
run is the only candidate, exactly as in the JS regex engine. -/
def scanNumAt (pre post cs : List Char) : Option String :=
  if charsLeads pre cs then
    let rest := cs.drop pre.length
    let ds := takeDigits rest
    if ds.isEmpty then none
    else if charsLeads post (rest.drop ds.length) then some (String.mk ds)
    else none
  else none

/-- Leftmost match of `<pre>(\d+)<post>` in the scanned text, returning the
first capture group — the model of `logContent.match(/pre(\d+)post/)?.[1]`. -/
def scanNumPattern (pre post : List Char) : List Char → Option String
  | [] => none
  | c :: cs =>
    match scanNumAt pre post (c :: cs) with
    | some d => some d
    | none => scanNumPattern pre post cs

/-- First capture of `logContent.match(/pre(\d+)post/)` as a string-level
function. -/
def sCapture (s preS postS : String) : Option String :=
  scanNumPattern preS.data postS.data s.data

/-- A raw build record as returned by `az pipelines build list` — only the
fields the resolution logic reads. -/
structure RawBuild where
  id : String
  buildNumber : String
  result : String
  sourceBranch : String
deriving DecidableEq, Repr

/-- The tie-break branch test from `getBuildByNumber`:
`build.sourceBranch && (includes "main" || includes "master" || includes "release/")`. -/
def goodBranch (b : RawBuild) : Bool :=
  (b.sourceBranch != "") &&
    (sContains b.sourceBranch "main" || sContains b.sourceBranch "master" ||
      sContains b.sourceBranch "release/")

/-- The selection block repeated verbatim in all three search phases of
`getBuildByNumber`: start from the first match; when there are several,
prefer the first succeeded build, and within succeeded builds the first one
on a main/master/release branch. -/
def selectBestBuild : List RawBuild → Option RawBuild
  | [] => none
  | b :: rest =>
    if rest.isEmpty then some b
    else
      let succeeded := (b :: rest).filter fun x => x.result == "succeeded"
      match succeeded.head? with
      | none => some b
      | some s =>
        match (succeeded.filter goodBranch).head? with
        | none => some s
        | some m => some m

/-- The format gate of `getBuildByNumber`: `buildNumber.match(/^(\d{8})\./)`
— eight leading digits immediately followed by a dot. -/
def hasDatePrefix (s : String) : Bool :=
  ((s.data.take 8).length == 8) && (s.data.take 8).all Char.isDigit &&
    ((s.data.drop 8).head? == some '.')

/-- Modelled from the spec's words for comparison with the code's format
gate: the `YYYYMMDD.N` shape — an 8-digit date prefix, a dot, and a
(non-empty, all-digit) numeric suffix. -/
def specBuildNumberShape (s : String) : Bool :=
  hasDatePrefix s && (!(s.data.drop 9).isEmpty) && (s.data.drop 9).all Char.isDigit

/-- Structured error taxonomy of the build resolution (spec §7): the format
gate, the terminal not-found failure, and a surfaced provider failure. -/
inductive ResolveError where
  | format : ResolveError
  | notFound : ResolveError
  | transport : String → ResolveError
deriving DecidableEq, Repr

/-- Model of `builds.filter(b => b.buildNumber === buildNumber)` — the exact-number
filter applied in every search phase. -/
def filterByNumber (n : String) (builds : List RawBuild) : List RawBuild :=
  builds.filter fun b => b.buildNumber == n

/-- The `catch (dateError)` block of `getBuildByNumber`: scan the 100 most
recent builds, filter by exact number, select; the empty case throws the
final not-found error and a provider failure propagates. -/
def recentFallback (n : String) (recent : Except String (List RawBuild)) :
    Except ResolveError RawBuild :=
  match recent with
  | .error msg => .error (.transport msg)
  | .ok builds =>
    match selectBestBuild (filterByNumber n builds) with
    | some b => .ok b
    | none => .error .notFound

/-- Model of `getBuildByNumber`: the three inputs are the provider responses for the
exact-day window, the widened window (one day before to two days after) and
the 100 most recent builds.  Any throw inside the date-filtered search —
a provider failure in either window, or the explicit not-found throw when the
widened window has zero exact matches — lands in the `catch (dateError)`
block, i.e. triggers `recentFallback`. -/
def getBuildByNumber (n : String) (exact widened recent : Except String (List RawBuild)) :
    Except ResolveError RawBuild :=
  if !hasDatePrefix n then .error .format
  else
    match exact with
    | .error _ => recentFallback n recent
    | .ok builds =>
      match selectBestBuild (filterByNumber n builds) with
      | some b => .ok b
      | none =>
        match widened with
        | .error _ => recentFallback n recent
        | .ok wbuilds =>
          match selectBestBuild (filterByNumber n wbuilds) with
          | some b => .ok b
          | none => recentFallback n recent

/-- The six-field health-check report (`HealthCheckResults`). -/
structure HealthCheckResults where
  securityAudit : String
  environmentCheck : String
  prettier : String
  eslint : String
  typescript : String
  buildSuccess : String
deriving DecidableEq, Repr

/-- The initial report, every field at its "not found" sentinel. -/
def initialHealthCheckResults : HealthCheckResults :=
  { securityAudit := "ℹ️ Security audit not found"
    environmentCheck := "ℹ️ Environment check not found"
    prettier := "ℹ️ Prettier check not found"
    eslint := "ℹ️ ESLint check not found"
    typescript := "ℹ️ TypeScript check not found"
    buildSuccess := "ℹ️ Build status unknown" }

/-- The security-audit block of `processLogForHealthChecks`. -/
def stepSecurityAudit (logContent : String) (results : HealthCheckResults) :
    HealthCheckResults :=
  if sContains logContent "npm audit" then
    { results with securityAudit :=
        if sContains logContent "found 0 vulnerabilities" then
          "✅ No vulnerabilities found"
        else
          match sCapture logContent "" " vulnerabilitie" with
          | some n => "⚠️ " ++ n ++ " vulnerabilities found"
          | none => "⚠️ Vulnerabilities detected" }
  else results

/-- The environment-check block of `processLogForHealthChecks`. -/
def stepEnvironmentCheck (logContent : String) (results : HealthCheckResults) :
    HealthCheckResults :=
  if sContains logContent "env" &&
      (sContains logContent "up to date" || sContains logContent "Check") then
    { results with environmentCheck :=
        if sContains logContent "succeeded" || sContains logContent "✅" then
          "✅ Environment variables validated"
        else "❌ Environment validation failed" }
  else results

/-- The Prettier block of `processLogForHealthChecks`. -/
def stepPrettier (logContent : String) (results : HealthCheckResults) :
    HealthCheckResults :=
  if sContains logContent "prettier" then
    { results with prettier :=
        if sContains logContent "All matched files use Prettier code style" ||
            !sContains logContent "error" then
          "✅ Code formatting validated"
        else "❌ Code formatting issues found" }
  else results

/-- The ESLint block of `processLogForHealthChecks`. -/
def stepEslint (logContent : String) (results : HealthCheckResults) :
    HealthCheckResults :=
  if sContains logContent "eslint" then
    { results with eslint :=
        if sContains logContent "0 errors, 0 warnings" ||
            (!sContains logContent "error" && !sContains logContent "warning") then
          "✅ No linting errors"
        else
          "⚠️ " ++ ((sCapture logContent "" " error").getD "0") ++ " errors, " ++
            ((sCapture logContent "" " warning").getD "0") ++ " warnings" }
  else results

/-- The TypeScript block of `processLogForHealthChecks`. -/
def stepTypescript (logContent : String) (results : HealthCheckResults) :
    HealthCheckResults :=
  if sContains logContent "tsc" || sContains logContent "typecheck" ||
      sContains logContent "TypeScript" then
    { results with typescript :=
        if sContains logContent "Found 0 errors" then "✅ No TypeScript errors"
        else
          match sCapture logContent "Found " " error" with
          | some n => "❌ " ++ n ++ " TypeScript errors found"
          | none =>
            if sContains logContent "error" && !sContains logContent "0 error" then
              "❌ TypeScript errors found"
            else if sContains logContent "Compilation complete" ||
                sContains logContent "successfully" then
              "✅ TypeScript compilation successful"
            else "⚠️ TypeScript check inconclusive" }
  else results

/-- The build-success block of `processLogForHealthChecks`. -/
def stepBuildOutcome (logContent : String) (results : HealthCheckResults) :
    HealthCheckResults :=
  if sContains logContent "succeeded" then
    { results with buildSuccess := "✅ Build completed successfully" }
  else if sContains logContent "failed" then
    { results with buildSuccess := "❌ Build failed" }
  else results

/-- Model of `processLogForHealthChecks`: scan one log blob and overwrite each field
whose trigger substring occurs — the six sequential mutation blocks of the
TypeScript method, applied in source order. -/
def processLogForHealthChecks (logContent : String) (results : HealthCheckResults) :
    HealthCheckResults :=
  stepBuildOutcome logContent
    (stepTypescript logContent
      (stepEslint logContent
        (stepPrettier logContent
          (stepEnvironmentCheck logContent
            (stepSecurityAudit logContent results)))))

/-- Fold one optional log blob into the report: a log whose fetch threw is
skipped (`catch { continue }`). -/
def processOptionalLog (results : HealthCheckResults) (log : Option String) :
    HealthCheckResults :=
  match log with
  | some c => processLogForHealthChecks c results
  | none => results

/-- The fixed fallback log identifiers tried by `extractHealthCheckResults`. -/
def fallbackLogIds : List String := ["19", "18", "20", "34"]

/-- The log-scanning phase of `extractHealthCheckResults`: fold the timeline
logs left-to-right, then — only when the security-audit field still contains
"not found" — fold the four fixed fallback log ids.  `timeline = none`
models a failed `getBuildTimeline` call, which skips both loops. -/
def scanHealthCheckLogs (timeline : Option (List (Option String)))
    (fetchLog : String → Option String) : HealthCheckResults :=
  match timeline with
  | none => initialHealthCheckResults
  | some logs =>
    let results := logs.foldl processOptionalLog initialHealthCheckResults
    if sContains results.securityAudit "not found" then
      fallbackLogIds.foldl (fun r logId => processOptionalLog r (fetchLog logId)) results
    else results

/-- The authoritative build-result override at the end of
`extractHealthCheckResults`.  An absent or empty result (JS falsy) leaves the
report unchanged. -/
def applyBuildResultOverride (results : HealthCheckResults) :
    Option String → HealthCheckResults
  | none => results
  | some br =>
    if br == "" then results
    else if br == "succeeded" then
      let results := { results with buildSuccess := "✅ Build completed successfully" }
      if sContains results.typescript "❌" then
        { results with typescript := "⚠️ TypeScript warnings found (build still succeeded)" }
      else results
    else if br == "failed" then { results with buildSuccess := "❌ Build failed" }
    else if br == "canceled" then { results with buildSuccess := "⚠️ Build was canceled" }
    else if br == "partiallySucceeded" then
      { results with buildSuccess := "⚠️ Build partially succeeded" }
    else results

/-- Model of `extractHealthCheckResults` end to end: scan, then apply the
authoritative build result. -/
def extractHealthCheckResults (timeline : Option (List (Option String)))
    (fetchLog : String → Option String) (buildResult : Option String) :
    HealthCheckResults :=
  applyBuildResultOverride (scanHealthCheckLogs timeline fetchLog) buildResult

/-- A log content counts as scanned by `extractHealthCheckResults` when it is
a successfully fetched timeline log or the content behind one of the four
fallback log ids. -/
def ScannedLog (timeline : List (Option String)) (fetchLog : String → Option String)
    (c : String) : Prop :=
  some c ∈ timeline ∨ ∃ logId ∈ fallbackLogIds, fetchLog logId = some c

/-- An approval record as consumed by the template engine (`ApprovalInfo`).
`modifiedOn` is the epoch-millisecond value of `new Date(modifiedOn).getTime()`. -/
structure ApprovalInfo where
  id : String
  approver : String
  status : String
  createdOn : Nat
  modifiedOn : Nat
  comments : String
  environmentName : String
  approvalType : String
deriving DecidableEq, Repr

/-- The ascending comparator `(a, b) => new Date(a.modifiedOn) - new Date(b.modifiedOn)`
used by every approval `sort` call. -/
def modifiedLe (a b : ApprovalInfo) : Prop := a.modifiedOn ≤ b.modifiedOn

instance : DecidableRel modifiedLe := fun a b => Nat.decLe a.modifiedOn b.modifiedOn

instance : IsTotal ApprovalInfo modifiedLe := ⟨fun a b => Nat.le_total a.modifiedOn b.modifiedOn⟩

instance : IsTrans ApprovalInfo modifiedLe := ⟨fun _ _ _ => Nat.le_trans⟩

/-- Model of `approvals.sort((a, b) => modified(a) - modified(b))`: JS `Array.sort` is
stable, and a stable ascending sort by a numeric key is extensionally the
insertion sort with the non-strict key order. -/
def sortByModifiedOn (l : List ApprovalInfo) : List ApprovalInfo :=
  l.insertionSort modifiedLe

/-- Model of `sorted[sorted.length - 1]`: the record the code reads after sorting
ascending — the last, i.e. latest-modified, element. -/
def latestByModifiedOn (l : List ApprovalInfo) : Option ApprovalInfo :=
  (sortByModifiedOn l).getLast?

/-- Pre-deployment representative selection from `generateEnvironmentSections`
(the same block appears in the production variant): an empty partition is
rendered as a pending row; otherwise the latest approved record wins, and when
none is approved the latest record of any status. -/
def selectPreDeployRepresentative (pre : List ApprovalInfo) : Option ApprovalInfo :=
  match pre with
  | [] => none
  | _ :: _ =>
    let approved := pre.filter fun a => a.status == "approved"
    if approved.length > 0 then latestByModifiedOn approved
    else latestByModifiedOn pre

/-- Model of `a.status === "canceled" || a.status === "cancelled" || a.status === "rejected"`. -/
def isCancelLike (a : ApprovalInfo) : Bool :=
  a.status == "canceled" || a.status == "cancelled" || a.status == "rejected"

/-- Post-deployment representative selection in the UAT report variant
(`generateEnvironmentSections`): canceled/rejected records take priority, then
approved ones, then the latest of any status. -/
def selectPostDeployRepresentativeUAT (post : List ApprovalInfo) : Option ApprovalInfo :=
  match post with
  | [] => none
  | _ :: _ =>
    let canceled := post.filter isCancelLike
    let approved := post.filter fun a => a.status == "approved"
    if canceled.length > 0 then latestByModifiedOn canceled
    else if approved.length > 0 then latestByModifiedOn approved
    else latestByModifiedOn post

/-- Post-deployment representative selection in the production report variant
(`generateProductionEnvironmentSections`, non-production sections): approved
records first, then the latest of any status — no cancel priority. -/
def selectPostDeployRepresentativeProd (post : List ApprovalInfo) : Option ApprovalInfo :=
  match post with
  | [] => none
  | _ :: _ =>
    let approved := post.filter fun a => a.status == "approved"
    if approved.length > 0 then latestByModifiedOn approved
    else latestByModifiedOn post

/-- The artifact reference fields of `release.artifacts[i]` read by
`getReleaseByNumber`; a `none` models an absent optional-chain path and an
empty string is JS-falsy as well. -/
structure ReleaseArtifact where
  versionName : Option String
  buildNumberName : Option String
  versionId : Option String
  attachedAlias : Option String
deriving DecidableEq, Repr

/-- JS truthiness of an optional string field. -/
def truthy : Option String → Bool
  | none => false
  | some s => s != ""

/-- The associated-build derivation of `getReleaseByNumber`: inspect the first
artifact and take the first truthy value among version name, build-number
name, version id and alias; otherwise the "Unknown" sentinel. -/
def associatedBuildNumber (artifacts : List ReleaseArtifact) : String :=
  match artifacts with
  | [] => "Unknown"
  | artifact :: _ =>
    if truthy artifact.versionName then artifact.versionName.getD ""
    else if truthy artifact.buildNumberName then artifact.buildNumberName.getD ""
    else if truthy artifact.versionId then artifact.versionId.getD ""
    else if truthy artifact.attachedAlias then artifact.attachedAlias.getD ""
    else "Unknown"

/-- Modelled from the spec's words for comparison: exactly three extraction
paths — artifact version name, artifact build-number name, artifact alias —
first non-empty wins, else "Unknown". -/
def specAssociatedBuildNumber (artifacts : List ReleaseArtifact) : String :=
  match artifacts with
  | [] => "Unknown"
  | artifact :: _ =>
    if truthy artifact.versionName then artifact.versionName.getD ""
    else if truthy artifact.buildNumberName then artifact.buildNumberName.getD ""
    else if truthy artifact.attachedAlias then artifact.attachedAlias.getD ""
    else "Unknown"

/-- Fields of `artifact.resource` in a raw artifact listing entry. -/
structure RawArtifactResource where
  resourceType : Option String
  artifactsize : Option Nat
deriving DecidableEq, Repr

/-- One entry of the `az pipelines runs artifact list` JSON. -/
structure RawArtifact where
  name : Option String
  resource : Option RawArtifactResource
deriving DecidableEq, Repr

/-- The report-level artifact record (`BuildArtifact`). -/
structure BuildArtifact where
  name : Option String
  artifactType : Option String
  size : Option String
deriving DecidableEq, Repr

/-- Model of `(artifactsize / 1024 / 1024).toFixed(1) + " MB"`, with exact
rational rounding to one decimal; the claims depend only on whether the size
is populated, not on the rendered digits. -/
def formatSizeMB (bytes : Nat) : String :=
  let tenths := (bytes * 10 + 524288) / 1048576
  toString (tenths / 10) ++ "." ++ toString (tenths % 10) ++ " MB"

/-- The per-artifact mapping body of `getBuildArtifacts`; reading
`artifact.resource.type` with `resource` present cannot throw, and the size is
set only for a truthy (present, non-zero) raw byte count. -/
def mkBuildArtifact (a : RawArtifact) : BuildArtifact :=
  { name := a.name
    artifactType := (a.resource.map (·.resourceType)).getD none
    size :=
      match a.resource.bind (·.artifactsize) with
      | some n => if n != 0 then some (formatSizeMB n) else none
      | none => none }

/-- Model of `getBuildArtifacts`: `listing = none` models a failed CLI call or
unparsable JSON; an artifact without a `resource` object makes the mapping
throw; both are swallowed by the surrounding `catch`, which returns `[]`. -/
def getBuildArtifacts (listing : Option (List RawArtifact)) : List BuildArtifact :=
  match listing with
  | none => []
  | some artifacts =>
    if artifacts.all fun a => a.resource.isSome then artifacts.map mkBuildArtifact
    else []

/-! Helper lemmas. -/

theorem selectBestBuild_cons_isSome (b : RawBuild) (rest : List RawBuild) :
    ∃ x, selectBestBuild (b :: rest) = some x := by
  simp only [selectBestBuild]
  by_cases hr : rest.isEmpty = true
  · rw [if_pos hr]; exact ⟨b, rfl⟩
  · rw [if_neg hr]
    split
    · exact ⟨b, rfl⟩
    · split
      · exact ⟨_, rfl⟩
      · exact ⟨_, rfl⟩

theorem selectBestBuild_eq_none_iff (l : List RawBuild) :
    selectBestBuild l = none ↔ l = [] := by
  cases l with
  | nil => simp [selectBestBuild]
  | cons b rest =>
    obtain ⟨x, hx⟩ := selectBestBuild_cons_isSome b rest
    simp [hx]

theorem selectBestBuild_exists (l : List RawBuild) (hl : l ≠ []) :
    ∃ b, selectBestBuild l = some b := by
  cases h : selectBestBuild l with
  | none => exact absurd ((selectBestBuild_eq_none_iff l).mp h) hl
  | some b => exact ⟨b, rfl⟩

theorem head?_filter_eq_find? (p : α → Bool) (l : List α) :
    (l.filter p).head? = l.find? p := by
  induction l with
  | nil => rfl
  | cons a t ih =>
    by_cases h : p a <;> simp [List.filter_cons, List.find?_cons, h, ih]

theorem find?_congr_pred {p q : α → Bool} (h : ∀ a, p a = q a) (l : List α) :
    l.find? p = l.find? q := by
  induction l with
  | nil => rfl
  | cons a t ih => simp [List.find?_cons, h a, ih]

theorem sorted_le_getLast (l : List ApprovalInfo) (h : l.Sorted modifiedLe)
    (m : ApprovalInfo) (hm : l.getLast? = some m) :
    ∀ a ∈ l, a.modifiedOn ≤ m.modifiedOn := by
  induction l with
  | nil => simp at hm
  | cons x t ih =>
    cases t with
    | nil =>
      simp [List.getLast?] at hm
      subst hm
      intro a ha
      simp at ha
      subst ha
      exact Nat.le_refl _
    | cons y ts =>
      have hm' : (y :: ts).getLast? = some m := by
        rw [← hm]; rfl
      have hs := (List.sorted_cons.mp h)
      intro a ha
      rcases List.mem_cons.mp ha with rfl | hat
      · exact hs.1 m (List.mem_of_mem_getLast? hm')
      · exact ih hs.2 hm' a hat

theorem latestByModifiedOn_spec (l : List ApprovalInfo) (hl : l ≠ []) :
    ∃ m, latestByModifiedOn l = some m ∧ m ∈ l ∧
      ∀ a ∈ l, a.modifiedOn ≤ m.modifiedOn := by
  have hperm : (sortByModifiedOn l).Perm l := List.perm_insertionSort modifiedLe l
  have hsorted : (sortByModifiedOn l).Sorted modifiedLe := List.sorted_insertionSort modifiedLe l
  have hne : sortByModifiedOn l ≠ [] := by
    intro hempty
    exact hl (List.Perm.eq_nil (hempty ▸ hperm.symm))
  cases hlast : (sortByModifiedOn l).getLast? with
  | none => exact absurd (List.getLast?_eq_none_iff.mp hlast) hne
  | some m =>
    refine ⟨m, hlast, ?_, ?_⟩
    · exact hperm.mem_iff.mp (List.mem_of_mem_getLast? hlast)
    · intro a ha
      exact sorted_le_getLast (sortByModifiedOn l) hsorted m hlast a (hperm.mem_iff.mpr ha)

theorem specShape_implies_hasDatePrefix (s : String)
    (h : specBuildNumberShape s = true) : hasDatePrefix s = true := by
  simp only [specBuildNumberShape, Bool.and_eq_true] at h
  exact h.1.1

theorem recentFallback_ne_format (n : String) (recent : Except String (List RawBuild)) :
    recentFallback n recent ≠ .error .format := by
  unfold recentFallback
  cases recent with
  | error msg => simp
  | ok builds =>
    cases h : selectBestBuild (filterByNumber n builds) <;> simp [h]

/-- Claim C1: for a well-formed build number and successful provider queries,
`getBuildByNumber` tries the exact-day window, then the widened window, then
the 100 most recent builds, returning the selected exact-number match of the
first phase with at least one match, and fails with the not-found error
exactly when all three phases yield zero exact matches. -/
theorem buildByNumber_three_phase_resolution (n : String) (e w r : List RawBuild)
    (hn : specBuildNumberShape n = true) :
    (filterByNumber n e ≠ [] →
      ∃ b, selectBestBuild (filterByNumber n e) = some b ∧
        getBuildByNumber n (.ok e) (.ok w) (.ok r) = .ok b) ∧
    (filterByNumber n e = [] → filterByNumber n w ≠ [] →
      ∃ b, selectBestBuild (filterByNumber n w) = some b ∧
        getBuildByNumber n (.ok e) (.ok w) (.ok r) = .ok b) ∧
    (filterByNumber n e = [] → filterByNumber n w = [] → filterByNumber n r ≠ [] →
      ∃ b, selectBestBuild (filterByNumber n r) = some b ∧
        getBuildByNumber n (.ok e) (.ok w) (.ok r) = .ok b) ∧
    (getBuildByNumber n (.ok e) (.ok w) (.ok r) = .error .notFound ↔
      filterByNumber n e = [] ∧ filterByNumber n w = [] ∧ filterByNumber n r = []) := by
  have hp := specShape_implies_hasDatePrefix n hn
  refine ⟨?_, ?_, ?_, ?_⟩
  · intro h1
    obtain ⟨b, hb⟩ := selectBestBuild_exists _ h1
    exact ⟨b, hb, by simp [getBuildByNumber, hp, hb]⟩
  · intro h1 h2
    obtain ⟨b, hb⟩ := selectBestBuild_exists _ h2
    have hn1 : selectBestBuild (filterByNumber n e) = none :=
      (selectBestBuild_eq_none_iff _).mpr h1
    exact ⟨b, hb, by simp [getBuildByNumber, hp, hn1, hb]⟩
  · intro h1 h2 h3
    obtain ⟨b, hb⟩ := selectBestBuild_exists _ h3
    have hn1 : selectBestBuild (filterByNumber n e) = none :=
      (selectBestBuild_eq_none_iff _).mpr h1
    have hn2 : selectBestBuild (filterByNumber n w) = none :=
      (selectBestBuild_eq_none_iff _).mpr h2
    exact ⟨b, hb, by simp [getBuildByNumber, hp, hn1, hn2, recentFallback, hb]⟩
  · constructor
    · intro h
      cases hse : selectBestBuild (filterByNumber n e) with
      | some b => simp [getBuildByNumber, hp, hse] at h
      | none =>
        cases hsw : selectBestBuild (filterByNumber n w) with
        | some b => simp [getBuildByNumber, hp, hse, hsw] at h
        | none =>
          cases hsr : selectBestBuild (filterByNumber n r) with
          | some b => simp [getBuildByNumber, hp, hse, hsw, recentFallback, hsr] at h
          | none =>
            exact ⟨(selectBestBuild_eq_none_iff _).mp hse,
              (selectBestBuild_eq_none_iff _).mp hsw,
              (selectBestBuild_eq_none_iff _).mp hsr⟩
    · rintro ⟨h1, h2, h3⟩
      have hn1 := (selectBestBuild_eq_none_iff (filterByNumber n e)).mpr h1
      have hn2 := (selectBestBuild_eq_none_iff (filterByNumber n w)).mpr h2
      have hn3 := (selectBestBuild_eq_none_iff (filterByNumber n r)).mpr h3
      simp [getBuildByNumber, hp, hn1, hn2, recentFallback, hn3]

/-- Witness for C1: with no matching build anywhere, the resolution fails
with the not-found error. -/
theorem buildByNumber_three_phase_resolution_witness :
    getBuildByNumber "20250101.1" (.ok []) (.ok []) (.ok []) = .error .notFound :=
  ((buildByNumber_three_phase_resolution "20250101.1" [] [] []
    (by decide)).2.2.2).mpr ⟨rfl, rfl, rfl⟩

/-- Claim C2: for every non-empty candidate list, the selected build is the
first succeeded candidate on a main/master/release branch when one exists,
otherwise the first succeeded candidate, otherwise the first candidate in
provider order; and for a succeeded/main candidate paired with a
non-succeeded one the succeeded/main candidate wins in either input order.
The same `selectBestBuild` block is what all three search phases run. -/
theorem selectBestBuild_three_tier (l : List RawBuild) (hl : l ≠ []) :
    (selectBestBuild l =
      match l.find? (fun x => (x.result == "succeeded") && goodBranch x) with
      | some m => some m
      | none =>
        match l.find? (fun x => x.result == "succeeded") with
        | some s => some s
        | none => l.head?) ∧
    (∀ b1 b2 : RawBuild, b1.result = "succeeded" → goodBranch b1 = true →
      b2.result ≠ "succeeded" →
      selectBestBuild [b1, b2] = some b1 ∧ selectBestBuild [b2, b1] = some b1) := by
  constructor
  · cases l with
    | nil => exact absurd rfl hl
    | cons b rest =>
      by_cases hr : rest.isEmpty = true
      · have hrest : rest = [] := List.isEmpty_iff.mp hr
        subst hrest
        by_cases h1 : ((b.result == "succeeded") && goodBranch b) = true
        · simp [selectBestBuild, List.find?_cons, h1]
        · by_cases h2 : (b.result == "succeeded") = true
          · have hgb : goodBranch b = false := by
              simp [h2] at h1
              exact h1
            simp [selectBestBuild, List.find?_cons, h1, h2, hgb]
          · simp [selectBestBuild, List.find?_cons, h1, h2]
      · have e1 : ((b :: rest).filter fun x => x.result == "succeeded").head?
            = (b :: rest).find? fun x => x.result == "succeeded" :=
          head?_filter_eq_find? _ _
        have e2 : (((b :: rest).filter fun x => x.result == "succeeded").filter
            goodBranch).head?
            = (b :: rest).find? fun x => (x.result == "succeeded") && goodBranch x := by
          rw [List.filter_filter, head?_filter_eq_find?]
          exact find?_congr_pred (fun a => Bool.and_comm _ _) _
        simp only [selectBestBuild, if_neg hr]
        rw [e1, e2]
        cases hg : (b :: rest).find? fun x => (x.result == "succeeded") && goodBranch x with
        | some m =>
          have hm := List.find?_some hg
          simp only [Bool.and_eq_true] at hm
          have hsucc : ((b :: rest).find? fun x => x.result == "succeeded").isSome := by
            rw [List.find?_isSome]
            exact ⟨m, List.mem_of_find?_eq_some hg, hm.1⟩
          obtain ⟨s, hs⟩ := Option.isSome_iff_exists.mp hsucc
          rw [hs]
        | none =>
          cases hsucc : (b :: rest).find? fun x => x.result == "succeeded" with
          | some s => rfl
          | none => rfl
  · intro b1 b2 h1 hg h2
    have hb1 : (b1.result == "succeeded") = true := by simp [h1]
    have hb2 : (b2.result == "succeeded") = false := by simp [h2]
    constructor
    · simp [selectBestBuild, List.filter_cons, hb1, hb2, hg]
    · simp [selectBestBuild, List.filter_cons, hb1, hb2, hg]

/-- Witness for C2: a failed feature-branch build listed first loses to a
succeeded main-branch build. -/
theorem selectBestBuild_three_tier_witness :
    selectBestBuild
      [⟨"2", "20250101.1", "failed", "refs/heads/feature/x"⟩,
       ⟨"1", "20250101.1", "succeeded", "refs/heads/main"⟩]
      = some ⟨"1", "20250101.1", "succeeded", "refs/heads/main"⟩ :=
  ((selectBestBuild_three_tier
      [⟨"2", "20250101.1", "failed", "refs/heads/feature/x"⟩,
       ⟨"1", "20250101.1", "succeeded", "refs/heads/main"⟩]
      (by simp)).2
    ⟨"1", "20250101.1", "succeeded", "refs/heads/main"⟩
    ⟨"2", "20250101.1", "failed", "refs/heads/feature/x"⟩
    rfl (by decide) (by decide)).2

/-- Claim C3 counterexample: the input "20250101.x" lacks the `YYYYMMDD.N`
shape (its suffix is not numeric), yet the format check accepts it and the
resolution proceeds to the provider queries and returns a build, so the
format check does not reject every input lacking the shape. -/
theorem formatCheck_counterexample :
    specBuildNumberShape "20250101.x" = false ∧
    hasDatePrefix "20250101.x" = true ∧
    getBuildByNumber "20250101.x"
        (.ok [⟨"7", "20250101.x", "succeeded", "refs/heads/main"⟩]) (.ok []) (.ok [])
      = .ok ⟨"7", "20250101.x", "succeeded", "refs/heads/main"⟩ := by
  exact ⟨by decide, by decide, rfl⟩

/-- Claim C3 amended: `getBuildByNumber` fails immediately with the format
error, independently of the provider inputs, exactly when the input lacks an
8-digit prefix immediately followed by a dot; every `YYYYMMDD.N`-shaped
input passes the check, but so do inputs with a non-numeric suffix. -/
theorem formatCheck_eight_digits_and_dot (s : String)
    (e w r : Except String (List RawBuild)) :
    (hasDatePrefix s = false → getBuildByNumber s e w r = .error .format) ∧
    (hasDatePrefix s = true → getBuildByNumber s e w r ≠ .error .format) ∧
    (specBuildNumberShape s = true → hasDatePrefix s = true) := by
  refine ⟨?_, ?_, specShape_implies_hasDatePrefix s⟩
  · intro h
    simp [getBuildByNumber, h]
  · intro h
    simp only [getBuildByNumber, h, Bool.not_true]
    cases e with
    | error msg => simpa using recentFallback_ne_format s r
    | ok builds =>
      cases hse : selectBestBuild (filterByNumber s builds) with
      | some b => simp [hse]
      | none =>
        cases w with
        | error msg => simpa [hse] using recentFallback_ne_format s r
        | ok wbuilds =>
          cases hsw : selectBestBuild (filterByNumber s wbuilds) with
          | some b => simp [hse, hsw]
          | none => simpa [hse, hsw] using recentFallback_ne_format s r

/-- Witness for the amended C3: a shapeless input is rejected with the
format error before any provider data is consulted. -/
theorem formatCheck_eight_digits_and_dot_witness :
    getBuildByNumber "not-a-build" (.ok []) (.ok []) (.ok []) = .error .format :=
  (formatCheck_eight_digits_and_dot "not-a-build" (.ok []) (.ok []) (.ok [])).1
    (by decide)

/-- Claim C4 counterexample: after a timeline log that resolves the security
audit, the ESLint field still holds its "not found" sentinel, yet the
fallback logs — which would resolve ESLint — are not tried, because the code
gates the fallback phase on the security-audit field alone, not on all six
fields. -/
theorem fallbackLogs_counterexample :
    (extractHealthCheckResults (some [some "npm audit found 0 vulnerabilities"])
        (fun _ => some "eslint 0 errors, 0 warnings") none).eslint
      = "ℹ️ ESLint check not found" ∧
    (extractHealthCheckResults (some [some "npm audit found 0 vulnerabilities"])
        (fun _ => some "eslint 0 errors, 0 warnings") none).securityAudit
      = "✅ No vulnerabilities found" ∧
    (processLogForHealthChecks "eslint 0 errors, 0 warnings"
        initialHealthCheckResults).eslint
      = "✅ No linting errors" := by
  exact ⟨rfl, rfl, rfl⟩

/-- Claim C4 amended: scanning merges logs left-to-right (a later log whose
trigger matches overwrites the field), and the fixed fallback log ids
'19','18','20','34' are all folded in, in order and without early stopping,
exactly when the security-audit field still contains "not found" after the
timeline scan. -/
theorem fallbackLogs_gated_on_security_audit (logs : List (Option String))
    (fetchLog : String → Option String) (br : Option String) :
    (sContains (logs.foldl processOptionalLog initialHealthCheckResults).securityAudit
        "not found" = true →
      extractHealthCheckResults (some logs) fetchLog br =
        applyBuildResultOverride
          (fallbackLogIds.foldl (fun acc logId => processOptionalLog acc (fetchLog logId))
            (logs.foldl processOptionalLog initialHealthCheckResults)) br) ∧
    (sContains (logs.foldl processOptionalLog initialHealthCheckResults).securityAudit
        "not found" = false →
      extractHealthCheckResults (some logs) fetchLog br =
        applyBuildResultOverride (logs.foldl processOptionalLog initialHealthCheckResults)
          br) ∧
    (∀ c : String,
      (logs ++ [some c]).foldl processOptionalLog initialHealthCheckResults =
        processLogForHealthChecks c (logs.foldl processOptionalLog initialHealthCheckResults)) := by
  refine ⟨?_, ?_, ?_⟩
  · intro h
    simp [extractHealthCheckResults, scanHealthCheckLogs, h]
  · intro h
    simp [extractHealthCheckResults, scanHealthCheckLogs, h]
  · intro c
    simp [List.foldl_append, processOptionalLog]

/-- Witness for the amended C4: with an empty timeline the sentinel is still
present, so the fallback logs are folded in. -/
theorem fallbackLogs_gated_on_security_audit_witness :
    extractHealthCheckResults (some []) (fun _ => some "npm audit found 0 vulnerabilities")
        none
      = applyBuildResultOverride
          (fallbackLogIds.foldl
            (fun acc logId =>
              processOptionalLog acc
                ((fun _ => some "npm audit found 0 vulnerabilities") logId))
            (([] : List (Option String)).foldl processOptionalLog initialHealthCheckResults))
          none :=
  (fallbackLogs_gated_on_security_audit [] (fun _ => some "npm audit found 0 vulnerabilities")
      none).1 (by decide)

/-- Claim C5: the authoritative build result overrides the log-derived build
outcome ('succeeded', 'failed', 'canceled', 'partiallySucceeded' each map to
a fixed display string), and a 'succeeded' result downgrades a type-check
failure glyph to a warning string while leaving a non-failing type-check
value untouched. -/
theorem buildResult_override (timeline : Option (List (Option String)))
    (fetchLog : String → Option String) :
    ((extractHealthCheckResults timeline fetchLog (some "succeeded")).buildSuccess
      = "✅ Build completed successfully") ∧
    (sContains (scanHealthCheckLogs timeline fetchLog).typescript "❌" = true →
      (extractHealthCheckResults timeline fetchLog (some "succeeded")).typescript
        = "⚠️ TypeScript warnings found (build still succeeded)") ∧
    (sContains (scanHealthCheckLogs timeline fetchLog).typescript "❌" = false →
      (extractHealthCheckResults timeline fetchLog (some "succeeded")).typescript
        = (scanHealthCheckLogs timeline fetchLog).typescript) ∧
    ((extractHealthCheckResults timeline fetchLog (some "failed")).buildSuccess
      = "❌ Build failed") ∧
    ((extractHealthCheckResults timeline fetchLog (some "canceled")).buildSuccess
      = "⚠️ Build was canceled") ∧
    ((extractHealthCheckResults timeline fetchLog (some "partiallySucceeded")).buildSuccess
      = "⚠️ Build partially succeeded") := by
  refine ⟨?_, ?_, ?_, ?_, ?_, ?_⟩
  · by_cases h : sContains (scanHealthCheckLogs timeline fetchLog).typescript "❌" = true
    · simp [extractHealthCheckResults, applyBuildResultOverride, h]
    · simp [extractHealthCheckResults, applyBuildResultOverride, h]
  · intro h
    simp [extractHealthCheckResults, applyBuildResultOverride, h]
  · intro h
    simp [extractHealthCheckResults, applyBuildResultOverride, h]
  · simp [extractHealthCheckResults, applyBuildResultOverride]
  · simp [extractHealthCheckResults, applyBuildResultOverride]
  · simp [extractHealthCheckResults, applyBuildResultOverride]

/-- Witness for C5: with no logs at all, a succeeded result sets the build
outcome and leaves the untriggered type-check sentinel alone. -/
theorem buildResult_override_witness :
    (extractHealthCheckResults none (fun _ => none) (some "succeeded")).buildSuccess
      = "✅ Build completed successfully" ∧
    (extractHealthCheckResults none (fun _ => none) (some "succeeded")).typescript
      = "ℹ️ TypeScript check not found" :=
  ⟨(buildResult_override none (fun _ => none)).1,
   ((buildResult_override none (fun _ => none)).2.2.1 (by decide)).trans (by decide)⟩

theorem stepSecurityAudit_shape (c : String) (r : HealthCheckResults) :
    ∃ v, stepSecurityAudit c r = { r with securityAudit := v } := by
  simp only [stepSecurityAudit]
  split
  · exact ⟨_, rfl⟩
  · exact ⟨r.securityAudit, rfl⟩

theorem stepEnvironmentCheck_shape (c : String) (r : HealthCheckResults) :
    ∃ v, stepEnvironmentCheck c r = { r with environmentCheck := v } := by
  simp only [stepEnvironmentCheck]
  split
  · exact ⟨_, rfl⟩
  · exact ⟨r.environmentCheck, rfl⟩

theorem stepPrettier_shape (c : String) (r : HealthCheckResults) :
    ∃ v, stepPrettier c r = { r with prettier := v } := by
  simp only [stepPrettier]
  split
  · exact ⟨_, rfl⟩
  · exact ⟨r.prettier, rfl⟩

theorem stepEslint_shape (c : String) (r : HealthCheckResults) :
    ∃ v, stepEslint c r = { r with eslint := v } := by
  simp only [stepEslint]
  split
  · exact ⟨_, rfl⟩
  · exact ⟨r.eslint, rfl⟩

theorem stepTypescript_shape (c : String) (r : HealthCheckResults) :
    ∃ v, stepTypescript c r = { r with typescript := v } := by
  simp only [stepTypescript]
  split
  · exact ⟨_, rfl⟩
  · exact ⟨r.typescript, rfl⟩

theorem stepBuildOutcome_shape (c : String) (r : HealthCheckResults) :
    ∃ v, stepBuildOutcome c r = { r with buildSuccess := v } := by
  simp only [stepBuildOutcome]
  split
  · exact ⟨_, rfl⟩
  split
  · exact ⟨_, rfl⟩
  · exact ⟨r.buildSuccess, rfl⟩

theorem processLog_triggers (c : String) (r : HealthCheckResults) :
    (sContains c "npm audit" = false →
      (processLogForHealthChecks c r).securityAudit = r.securityAudit) ∧
    (sContains c "env" = false →
      (processLogForHealthChecks c r).environmentCheck = r.environmentCheck) ∧
    (sContains c "prettier" = false →
      (processLogForHealthChecks c r).prettier = r.prettier) ∧
    (sContains c "eslint" = false →
      (processLogForHealthChecks c r).eslint = r.eslint) ∧
    (sContains c "tsc" = false → sContains c "typecheck" = false →
      sContains c "TypeScript" = false →
      (processLogForHealthChecks c r).typescript = r.typescript) ∧
    (sContains c "succeeded" = false → sContains c "failed" = false →
      (processLogForHealthChecks c r).buildSuccess = r.buildSuccess) := by
  obtain ⟨v1, e1⟩ := stepSecurityAudit_shape c r
  refine ⟨?_, ?_, ?_, ?_, ?_, ?_⟩
  · intro h
    have e1' : stepSecurityAudit c r = r := by simp [stepSecurityAudit, h]
    simp only [processLogForHealthChecks, e1']
    obtain ⟨v2, e2⟩ := stepEnvironmentCheck_shape c r
    rw [e2]
    obtain ⟨v3, e3⟩ := stepPrettier_shape c _
    rw [e3]
    obtain ⟨v4, e4⟩ := stepEslint_shape c _
    rw [e4]
    obtain ⟨v5, e5⟩ := stepTypescript_shape c _
    rw [e5]
    obtain ⟨v6, e6⟩ := stepBuildOutcome_shape c _
    rw [e6]
  · intro h
    have hcond : (sContains c "env" &&
        (sContains c "up to date" || sContains c "Check")) = false := by
      rw [h]; rfl
    have e2' : ∀ x, stepEnvironmentCheck c x = x := by
      intro x; simp [stepEnvironmentCheck, hcond]
    simp only [processLogForHealthChecks, e1, e2']
    obtain ⟨v3, e3⟩ := stepPrettier_shape c _
    rw [e3]
    obtain ⟨v4, e4⟩ := stepEslint_shape c _
    rw [e4]
    obtain ⟨v5, e5⟩ := stepTypescript_shape c _
    rw [e5]
    obtain ⟨v6, e6⟩ := stepBuildOutcome_shape c _
    rw [e6]
  · intro h
    have e3' : ∀ x, stepPrettier c x = x := by
      intro x; simp [stepPrettier, h]
    simp only [processLogForHealthChecks, e1, e3']
    obtain ⟨v2, e2⟩ := stepEnvironmentCheck_shape c _
    rw [e2]
    obtain ⟨v4, e4⟩ := stepEslint_shape c _
    rw [e4]
    obtain ⟨v5, e5⟩ := stepTypescript_shape c _
    rw [e5]
    obtain ⟨v6, e6⟩ := stepBuildOutcome_shape c _
    rw [e6]
  · intro h
    have e4' : ∀ x, stepEslint c x = x := by
      intro x; simp [stepEslint, h]
    simp only [processLogForHealthChecks, e1, e4']
    obtain ⟨v2, e2⟩ := stepEnvironmentCheck_shape c _
    rw [e2]
    obtain ⟨v3, e3⟩ := stepPrettier_shape c _
    rw [e3]
    obtain ⟨v5, e5⟩ := stepTypescript_shape c _
    rw [e5]
    obtain ⟨v6, e6⟩ := stepBuildOutcome_shape c _
    rw [e6]
  · intro h1 h2 h3
    have e5' : ∀ x, stepTypescript c x = x := by
      intro x; simp [stepTypescript, h1, h2, h3]
    simp only [processLogForHealthChecks, e1, e5']
    obtain ⟨v2, e2⟩ := stepEnvironmentCheck_shape c _
    rw [e2]
    obtain ⟨v3, e3⟩ := stepPrettier_shape c _
    rw [e3]
    obtain ⟨v4, e4⟩ := stepEslint_shape c _
    rw [e4]
    obtain ⟨v6, e6⟩ := stepBuildOutcome_shape c _
    rw [e6]
  · intro h1 h2
    have e6' : ∀ x, stepBuildOutcome c x = x := by
      intro x; simp [stepBuildOutcome, h1, h2]
    simp only [processLogForHealthChecks, e1, e6']
    obtain ⟨v2, e2⟩ := stepEnvironmentCheck_shape c _
    rw [e2]
    obtain ⟨v3, e3⟩ := stepPrettier_shape c _
    rw [e3]
    obtain ⟨v4, e4⟩ := stepEslint_shape c _
    rw [e4]
    obtain ⟨v5, e5⟩ := stepTypescript_shape c _
    rw [e5]

theorem foldl_processOptionalLog_unchanged (f : HealthCheckResults → String)
    (trig : String → Bool)
    (step : ∀ c r, trig c = false → f (processLogForHealthChecks c r) = f r)
    (logs : List (Option String)) (r : HealthCheckResults)
    (h : ∀ c, some c ∈ logs → trig c = false) :
    f (logs.foldl processOptionalLog r) = f r := by
  induction logs generalizing r with
  | nil => rfl
  | cons l t ih =>
    rw [List.foldl_cons]
    have h1 : f (processOptionalLog r l) = f r := by
      cases l with
      | none => rfl
      | some c => exact step c r (h c (List.mem_cons_self _ _))
    rw [ih (processOptionalLog r l) fun c hc => h c (List.mem_cons_of_mem _ hc), h1]

theorem foldl_fetch_eq_map (ids : List String) (fetch : String → Option String)
    (r : HealthCheckResults) :
    ids.foldl (fun acc logId => processOptionalLog acc (fetch logId)) r
      = (ids.map fetch).foldl processOptionalLog r := by
  induction ids generalizing r with
  | nil => rfl
  | cons i t ih => simp [List.foldl_cons, ih]

theorem scan_field_unchanged (f : HealthCheckResults → String) (trig : String → Bool)
    (step : ∀ c r, trig c = false → f (processLogForHealthChecks c r) = f r)
    (logs : List (Option String)) (fetchLog : String → Option String)
    (h : ∀ c, ScannedLog logs fetchLog c → trig c = false) :
    f (scanHealthCheckLogs (some logs) fetchLog) = f initialHealthCheckResults := by
  have htl : ∀ c, some c ∈ logs → trig c = false := fun c hc => h c (Or.inl hc)
  have hfold : f (logs.foldl processOptionalLog initialHealthCheckResults)
      = f initialHealthCheckResults :=
    foldl_processOptionalLog_unchanged f trig step logs _ htl
  simp only [scanHealthCheckLogs]
  by_cases hcond :
      sContains (logs.foldl processOptionalLog initialHealthCheckResults).securityAudit
        "not found" = true
  · rw [if_pos hcond, foldl_fetch_eq_map]
    have hfb : ∀ c, some c ∈ fallbackLogIds.map fetchLog → trig c = false := by
      intro c hc
      rw [List.mem_map] at hc
      obtain ⟨logId, hid, hfetch⟩ := hc
      exact h c (Or.inr ⟨logId, hid, hfetch⟩)
    rw [foldl_processOptionalLog_unchanged f trig step _ _ hfb, hfold]
  · rw [if_neg hcond]
    exact hfold

/-- Claim C6: each health-check field is modified only when its trigger
substring occurs in a scanned log, so a field whose trigger never occurs in
any scanned log (timeline or fallback) still holds its "not found" sentinel
in the final report. -/
theorem scanner_preserves_sentinels (logs : List (Option String))
    (fetchLog : String → Option String) :
    ((¬∃ c, ScannedLog logs fetchLog c ∧ sContains c "npm audit" = true) →
      (extractHealthCheckResults (some logs) fetchLog none).securityAudit
        = "ℹ️ Security audit not found") ∧
    ((¬∃ c, ScannedLog logs fetchLog c ∧ sContains c "env" = true) →
      (extractHealthCheckResults (some logs) fetchLog none).environmentCheck
        = "ℹ️ Environment check not found") ∧
    ((¬∃ c, ScannedLog logs fetchLog c ∧ sContains c "prettier" = true) →
      (extractHealthCheckResults (some logs) fetchLog none).prettier
        = "ℹ️ Prettier check not found") ∧
    ((¬∃ c, ScannedLog logs fetchLog c ∧ sContains c "eslint" = true) →
      (extractHealthCheckResults (some logs) fetchLog none).eslint
        = "ℹ️ ESLint check not found") ∧
    ((¬∃ c, ScannedLog logs fetchLog c ∧
        (sContains c "tsc" || sContains c "typecheck" || sContains c "TypeScript") = true) →
      (extractHealthCheckResults (some logs) fetchLog none).typescript
        = "ℹ️ TypeScript check not found") ∧
    ((¬∃ c, ScannedLog logs fetchLog c ∧
        (sContains c "succeeded" || sContains c "failed") = true) →
      (extractHealthCheckResults (some logs) fetchLog none).buildSuccess
        = "ℹ️ Build status unknown") := by
  have hext : extractHealthCheckResults (some logs) fetchLog none
      = scanHealthCheckLogs (some logs) fetchLog := rfl
  refine ⟨?_, ?_, ?_, ?_, ?_, ?_⟩ <;> intro hno
  · rw [hext]
    refine scan_field_unchanged HealthCheckResults.securityAudit
      (fun c => sContains c "npm audit") (fun c r hc => (processLog_triggers c r).1 hc)
      logs fetchLog ?_
    intro c hc
    cases hval : sContains c "npm audit"
    · exact hval
    · exact absurd ⟨c, hc, hval⟩ hno
  · rw [hext]
    refine scan_field_unchanged HealthCheckResults.environmentCheck
      (fun c => sContains c "env") (fun c r hc => (processLog_triggers c r).2.1 hc)
      logs fetchLog ?_
    intro c hc
    cases hval : sContains c "env"
    · exact hval
    · exact absurd ⟨c, hc, hval⟩ hno
  · rw [hext]
    refine scan_field_unchanged HealthCheckResults.prettier
      (fun c => sContains c "prettier") (fun c r hc => (processLog_triggers c r).2.2.1 hc)
      logs fetchLog ?_
    intro c hc
    cases hval : sContains c "prettier"
    · exact hval
    · exact absurd ⟨c, hc, hval⟩ hno
  · rw [hext]
    refine scan_field_unchanged HealthCheckResults.eslint
      (fun c => sContains c "eslint") (fun c r hc => (processLog_triggers c r).2.2.2.1 hc)
      logs fetchLog ?_
    intro c hc
    cases hval : sContains c "eslint"
    · exact hval
    · exact absurd ⟨c, hc, hval⟩ hno
  · rw [hext]
    refine scan_field_unchanged HealthCheckResults.typescript
      (fun c => sContains c "tsc" || sContains c "typecheck" || sContains c "TypeScript")
      (fun c r hc => ?_) logs fetchLog ?_
    · simp only [Bool.or_eq_false_iff] at hc
      exact (processLog_triggers c r).2.2.2.2.1 hc.1.1 hc.1.2 hc.2
    · intro c hc
      cases hval : (sContains c "tsc" || sContains c "typecheck" || sContains c "TypeScript")
      · exact hval
      · exact absurd ⟨c, hc, hval⟩ hno
  · rw [hext]
    refine scan_field_unchanged HealthCheckResults.buildSuccess
      (fun c => sContains c "succeeded" || sContains c "failed")
      (fun c r hc => ?_) logs fetchLog ?_
    · simp only [Bool.or_eq_false_iff] at hc
      exact (processLog_triggers c r).2.2.2.2.2 hc.1 hc.2
    · intro c hc
      cases hval : (sContains c "succeeded" || sContains c "failed")
      · exact hval
      · exact absurd ⟨c, hc, hval⟩ hno

/-- Witness for C6: a log with no trigger substrings leaves every field at
its sentinel. -/
theorem scanner_preserves_sentinels_witness :
    (extractHealthCheckResults (some [some "hello"]) (fun _ => none) none).securityAudit
      = "ℹ️ Security audit not found" ∧
    (extractHealthCheckResults (some [some "hello"]) (fun _ => none) none).eslint
      = "ℹ️ ESLint check not found" := by
  have hnone : ∀ p : String → Bool, p "hello" = false →
      ¬∃ c, ScannedLog [some "hello"] (fun _ => none) c ∧ p c = true := by
    intro p hp
    rintro ⟨c, hsc, hpat⟩
    rcases hsc with hmem | ⟨logId, _, hfetch⟩
    · have hc : c = "hello" := by simpa using hmem
      subst hc
      rw [hp] at hpat
      exact Bool.false_ne_true hpat
    · exact Option.noConfusion hfetch
  exact ⟨(scanner_preserves_sentinels [some "hello"] (fun _ => none)).1
      (hnone (fun c => sContains c "npm audit") (by decide)),
    (scanner_preserves_sentinels [some "hello"] (fun _ => none)).2.2.2.1
      (hnone (fun c => sContains c "eslint") (by decide))⟩

theorem filter_approved_mem {l : List ApprovalInfo} {a : ApprovalInfo}
    (hmem : a ∈ l) (hstat : a.status = "approved") :
    a ∈ l.filter fun x => x.status == "approved" := by
  rw [List.mem_filter]
  exact ⟨hmem, by simp [hstat]⟩

/-- Claim C7: pre-deployment representative selection — an empty partition
yields none (rendered pending with no time); with at least one approved
record the representative is an approved record with the latest modified
time; with none approved it is a record with the latest modified time of any
status; a lone record of any status represents itself. -/
theorem preDeploy_representative_selection (pre : List ApprovalInfo) :
    (pre = [] → selectPreDeployRepresentative pre = none) ∧
    ((∃ a ∈ pre, a.status = "approved") →
      ∃ rep, selectPreDeployRepresentative pre = some rep ∧ rep ∈ pre ∧
        rep.status = "approved" ∧
        ∀ a ∈ pre, a.status = "approved" → a.modifiedOn ≤ rep.modifiedOn) ∧
    (pre ≠ [] → (∀ a ∈ pre, a.status ≠ "approved") →
      ∃ rep, selectPreDeployRepresentative pre = some rep ∧ rep ∈ pre ∧
        ∀ a ∈ pre, a.modifiedOn ≤ rep.modifiedOn) ∧
    (∀ a : ApprovalInfo, selectPreDeployRepresentative [a] = some a) := by
  refine ⟨?_, ?_, ?_, ?_⟩
  · intro h
    subst h
    rfl
  · rintro ⟨a, hmem, hstat⟩
    cases pre with
    | nil => simp at hmem
    | cons p t =>
      have hfmem : a ∈ (p :: t).filter fun x => x.status == "approved" :=
        filter_approved_mem hmem hstat
      have hfne : ((p :: t).filter fun x => x.status == "approved") ≠ [] := by
        intro hempty
        rw [hempty] at hfmem
        simp at hfmem
      obtain ⟨m, hlatest, hmmem, hmax⟩ := latestByModifiedOn_spec _ hfne
      have hmm := List.mem_filter.mp hmmem
      refine ⟨m, ?_, hmm.1, by simpa using hmm.2, ?_⟩
      · simp only [selectPreDeployRepresentative]
        rw [if_pos (List.length_pos.mpr hfne)]
        exact hlatest
      · intro b hbmem hbstat
        exact hmax b (filter_approved_mem hbmem hbstat)
  · intro hne hnone
    cases pre with
    | nil => exact absurd rfl hne
    | cons p t =>
      have hfe : ((p :: t).filter fun x => x.status == "approved") = [] := by
        rw [List.filter_eq_nil_iff]
        intro a hmem
        simp [hnone a hmem]
      obtain ⟨m, hlatest, hmmem, hmax⟩ := latestByModifiedOn_spec (p :: t) (by simp)
      refine ⟨m, ?_, hmmem, hmax⟩
      simp only [selectPreDeployRepresentative]
      rw [hfe]
      simp only [List.length_nil, if_neg (by decide : ¬ (0 : Nat) > 0)]
      exact hlatest
  · intro a
    by_cases h : (a.status == "approved") = true
    · simp [selectPreDeployRepresentative, List.filter, h, latestByModifiedOn,
        sortByModifiedOn]
    · simp [selectPreDeployRepresentative, List.filter, h, latestByModifiedOn,
        sortByModifiedOn]

/-- Witness for C7: a later approved record beats an earlier rejected one,
exactly as the spec's example requires. -/
theorem preDeploy_representative_selection_witness :
    selectPreDeployRepresentative
      [⟨"1", "Rita", "rejected", 0, 50, "", "MY.UAT", "preDeploy"⟩,
       ⟨"2", "Avery", "approved", 0, 100, "", "MY.UAT", "preDeploy"⟩]
      = some ⟨"2", "Avery", "approved", 0, 100, "", "MY.UAT", "preDeploy"⟩ := by
  obtain ⟨rep, hsel, hmem, hstat, _⟩ :=
    (preDeploy_representative_selection
      [⟨"1", "Rita", "rejected", 0, 50, "", "MY.UAT", "preDeploy"⟩,
       ⟨"2", "Avery", "approved", 0, 100, "", "MY.UAT", "preDeploy"⟩]).2.1
      ⟨⟨"2", "Avery", "approved", 0, 100, "", "MY.UAT", "preDeploy"⟩, by simp, rfl⟩
  rw [hsel]
  rcases List.mem_cons.mp hmem with rfl | hmem'
  · simp at hstat
  · rcases List.mem_cons.mp hmem' with rfl | hmem''
    · rfl
    · simp at hmem''

/-- Claim C8: in the UAT report variant the post-deployment representative
gives priority to canceled/cancelled/rejected records — the latest such
record is selected even when approved records exist — while the production
report variant selects the latest approved record without cancel priority. -/
theorem postDeploy_cancel_priority_variants (post : List ApprovalInfo) :
    ((∃ a ∈ post, isCancelLike a = true) →
      ∃ rep, selectPostDeployRepresentativeUAT post = some rep ∧ rep ∈ post ∧
        isCancelLike rep = true ∧
        ∀ a ∈ post, isCancelLike a = true → a.modifiedOn ≤ rep.modifiedOn) ∧
    ((∃ a ∈ post, a.status = "approved") →
      ∃ rep, selectPostDeployRepresentativeProd post = some rep ∧ rep ∈ post ∧
        rep.status = "approved" ∧
        ∀ a ∈ post, a.status = "approved" → a.modifiedOn ≤ rep.modifiedOn) := by
  constructor
  · rintro ⟨a, hmem, hcanc⟩
    cases post with
    | nil => simp at hmem
    | cons p t =>
      have hfmem : a ∈ (p :: t).filter isCancelLike := by
        rw [List.mem_filter]
        exact ⟨hmem, hcanc⟩
      have hfne : ((p :: t).filter isCancelLike) ≠ [] := by
        intro hempty
        rw [hempty] at hfmem
        simp at hfmem
      obtain ⟨m, hlatest, hmmem, hmax⟩ := latestByModifiedOn_spec _ hfne
      have hmm := List.mem_filter.mp hmmem
      refine ⟨m, ?_, hmm.1, hmm.2, ?_⟩
      · simp only [selectPostDeployRepresentativeUAT]
        rw [if_pos (List.length_pos.mpr hfne)]
        exact hlatest
      · intro b hbmem hbcanc
        exact hmax b (List.mem_filter.mpr ⟨hbmem, hbcanc⟩)
  · rintro ⟨a, hmem, hstat⟩
    cases post with
    | nil => simp at hmem
    | cons p t =>
      have hfmem : a ∈ (p :: t).filter fun x => x.status == "approved" :=
        filter_approved_mem hmem hstat
      have hfne : ((p :: t).filter fun x => x.status == "approved") ≠ [] := by
        intro hempty
        rw [hempty] at hfmem
        simp at hfmem
      obtain ⟨m, hlatest, hmmem, hmax⟩ := latestByModifiedOn_spec _ hfne
      have hmm := List.mem_filter.mp hmmem
      refine ⟨m, ?_, hmm.1, by simpa using hmm.2, ?_⟩
      · simp only [selectPostDeployRepresentativeProd]
        rw [if_pos (List.length_pos.mpr hfne)]
        exact hlatest
      · intro b hbmem hbstat
        exact hmax b (filter_approved_mem hbmem hbstat)

/-- Witness for C8: with an approved record and a later canceled record, the
UAT variant surfaces the canceled one and the production variant the
approved one. -/
theorem postDeploy_cancel_priority_variants_witness :
    selectPostDeployRepresentativeUAT
      [⟨"1", "Avery", "approved", 0, 50, "", "MY.UAT", "postDeploy"⟩,
       ⟨"2", "Kai", "canceled", 0, 100, "", "MY.UAT", "postDeploy"⟩]
      = some ⟨"2", "Kai", "canceled", 0, 100, "", "MY.UAT", "postDeploy"⟩ ∧
    selectPostDeployRepresentativeProd
      [⟨"1", "Avery", "approved", 0, 50, "", "MY.UAT", "postDeploy"⟩,
       ⟨"2", "Kai", "canceled", 0, 100, "", "MY.UAT", "postDeploy"⟩]
      = some ⟨"1", "Avery", "approved", 0, 50, "", "MY.UAT", "postDeploy"⟩ := by
  constructor
  · obtain ⟨rep, hsel, hmem, hcanc, _⟩ :=
      (postDeploy_cancel_priority_variants
        [⟨"1", "Avery", "approved", 0, 50, "", "MY.UAT", "postDeploy"⟩,
         ⟨"2", "Kai", "canceled", 0, 100, "", "MY.UAT", "postDeploy"⟩]).1
        ⟨⟨"2", "Kai", "canceled", 0, 100, "", "MY.UAT", "postDeploy"⟩, by simp, by decide⟩
    rw [hsel]
    rcases List.mem_cons.mp hmem with rfl | hmem'
    · simp [isCancelLike] at hcanc
    · rcases List.mem_cons.mp hmem' with rfl | hmem''
      · rfl
      · simp at hmem''
  · obtain ⟨rep, hsel, hmem, hstat, _⟩ :=
      (postDeploy_cancel_priority_variants
        [⟨"1", "Avery", "approved", 0, 50, "", "MY.UAT", "postDeploy"⟩,
         ⟨"2", "Kai", "canceled", 0, 100, "", "MY.UAT", "postDeploy"⟩]).2
        ⟨⟨"1", "Avery", "approved", 0, 50, "", "MY.UAT", "postDeploy"⟩, by simp, rfl⟩
    rw [hsel]
    rcases List.mem_cons.mp hmem with rfl | hmem'
    · rfl
    · rcases List.mem_cons.mp hmem' with rfl | hmem''
      · simp at hstat
      · simp at hmem''

/-- Claim C9 counterexample: on an artifact whose version name and
build-number name are absent but whose version id and alias are both set,
the code returns the version id — a fourth extraction path the claim omits —
while the spec's three-path rule would return the alias. -/
theorem associatedBuild_counterexample :
    associatedBuildNumber [⟨none, none, some "123", some "drop-artifact"⟩] = "123" ∧
    specAssociatedBuildNumber [⟨none, none, some "123", some "drop-artifact"⟩]
      = "drop-artifact" ∧
    ("123" : String) ≠ "drop-artifact" := by
  refine ⟨rfl, rfl, by decide⟩

/-- Claim C9 amended: deriving the associated build never throws and tries
exactly four fallback extraction paths on the first artifact, in order —
artifact version name, artifact build-number name, artifact version id,
artifact alias — where the first truthy (present, non-empty) value wins;
with no artifacts or all four paths empty, the sentinel "Unknown" is
returned. -/
theorem associatedBuild_four_paths (arts : List ReleaseArtifact) :
    (arts = [] → associatedBuildNumber arts = "Unknown") ∧
    (∀ a rest, arts = a :: rest →
      (truthy a.versionName = true →
        associatedBuildNumber arts = a.versionName.getD "") ∧
      (truthy a.versionName = false → truthy a.buildNumberName = true →
        associatedBuildNumber arts = a.buildNumberName.getD "") ∧
      (truthy a.versionName = false → truthy a.buildNumberName = false →
        truthy a.versionId = true →
        associatedBuildNumber arts = a.versionId.getD "") ∧
      (truthy a.versionName = false → truthy a.buildNumberName = false →
        truthy a.versionId = false → truthy a.attachedAlias = true →
        associatedBuildNumber arts = a.attachedAlias.getD "") ∧
      (truthy a.versionName = false → truthy a.buildNumberName = false →
        truthy a.versionId = false → truthy a.attachedAlias = false →
        associatedBuildNumber arts = "Unknown")) := by
  constructor
  · intro h
    subst h
    rfl
  · intro a rest h
    subst h
    refine ⟨?_, ?_, ?_, ?_, ?_⟩ <;> intros <;>
      simp [associatedBuildNumber, *]

/-- Witness for the amended C9: an artifact carrying only an alias resolves
to the alias, and an empty artifact list resolves to "Unknown". -/
theorem associatedBuild_four_paths_witness :
    associatedBuildNumber [] = "Unknown" ∧
    associatedBuildNumber [⟨none, some "", none, some "drop"⟩] = "drop" :=
  ⟨(associatedBuild_four_paths []).1 rfl,
   (((associatedBuild_four_paths [⟨none, some "", none, some "drop"⟩]).2
      ⟨none, some "", none, some "drop"⟩ [] rfl).2.2.2.1 (by decide) (by decide)
      (by decide) (by decide)).trans rfl⟩

/-- Claim C10: `getBuildArtifacts` returns the empty list on every listing or
parsing failure (failed command, unparsable JSON, missing resource object)
instead of raising, maps the artifacts otherwise, and populates the size
field only when a raw byte count is present (and non-zero, i.e. JS-truthy). -/
theorem getBuildArtifacts_total_on_failures (listing : Option (List RawArtifact)) :
    (listing = none → getBuildArtifacts listing = []) ∧
    (∀ arts, listing = some arts → (∃ a ∈ arts, a.resource = none) →
      getBuildArtifacts listing = []) ∧
    (∀ arts, listing = some arts → (∀ a ∈ arts, a.resource.isSome = true) →
      getBuildArtifacts listing = arts.map mkBuildArtifact) ∧
    (∀ a : RawArtifact, (mkBuildArtifact a).size.isSome = true →
      ∃ n, a.resource.bind (·.artifactsize) = some n ∧ n ≠ 0) := by
  refine ⟨?_, ?_, ?_, ?_⟩
  · intro h
    subst h
    rfl
  · intro arts h ⟨a, hmem, hres⟩
    subst h
    have hall : (arts.all fun a => a.resource.isSome) = false := by
      rw [List.all_eq_false]
      exact ⟨a, hmem, by simp [hres]⟩
    simp [getBuildArtifacts, hall]
  · intro arts h hall
    subst h
    have : (arts.all fun a => a.resource.isSome) = true := List.all_eq_true.mpr hall
    simp [getBuildArtifacts, this]
  · intro a hsize
    simp only [mkBuildArtifact] at hsize
    cases hbind : a.resource.bind (·.artifactsize) with
    | none => rw [hbind] at hsize; simp at hsize
    | some n =>
      rw [hbind] at hsize
      by_cases hz : (n != 0) = true
      · exact ⟨n, rfl, by simpa using hz⟩
      · simp only [Option.isSome] at hsize
        rw [if_neg hz] at hsize
        simp at hsize

/-- Witness for C10: a failed listing yields no artifacts, and a 2 MiB
artifact is mapped with its size populated. -/
theorem getBuildArtifacts_total_on_failures_witness :
    getBuildArtifacts none = [] ∧
    getBuildArtifacts (some [⟨some "drop", some ⟨some "Container", some 2097152⟩⟩])
      = [⟨some "drop", some "Container", some "2.0 MB"⟩] := by
  constructor
  · exact (getBuildArtifacts_total_on_failures none).1 rfl
  · have := (getBuildArtifacts_total_on_failures
        (some [⟨some "drop", some ⟨some "Container", some 2097152⟩⟩])).2.2.1
      [⟨some "drop", some ⟨some "Container", some 2097152⟩⟩] rfl (by decide)
    rw [this]
    rfl

end AzureNimbus
